import Mathlib

/-!
# Verification of the `willow` derive-macro pipeline and runtime helpers

This file gives a shallow embedding of the `willow` repository
(`codegen/src/parse.rs`, `codegen/src/gen.rs`, `src/lib.rs`, `src/program.rs`,
`src/traits.rs`, `src/index.rs`) and proves properties of the embedded
definitions.  Rust syntax trees (`syn`) are modelled only as deeply as the
parser inspects them; token-level attribute parsing is assumed to have
succeeded, so attribute lists carry already-parsed values in source order.
-/

namespace Willow

/-! ## Syntax model (the fragment of `syn` the parser inspects) -/

/-- A value-type token.  The parser extracts the inner type of
`Attribute<T>` / `Uniform<T>` (and of the role-override attributes) but
never destructures it — it is cloned and re-emitted verbatim — so value
types are modelled as opaque tokens.  `unit` is the tuple type `()`
(which the generator also emits as the "unset uniform" placeholder);
`tok` covers every other type token. -/
inductive TyTok where
  | unit
  | tok (id : Nat)
deriving DecidableEq, Repr

/-- One generic argument inside angle brackets: a type argument
(`syn::GenericArgument::Type`) or a non-type argument such as a lifetime
or const. -/
inductive GenArg where
  | type (t : TyTok)
  | nonType (id : Nat)
deriving DecidableEq, Repr

/-- A Rust type as inspected by `parse.rs`.  A `path` type carries its leading
colon flag, its segment identifiers, and the arguments of its *last* segment
(`none` models both `PathArguments::None` and `Parenthesized`, which
`parse.rs` treats alike; `some l` models `AngleBracketed` arguments).
`other` covers every remaining type form, which the parser never
destructures. -/
inductive SynType where
  | path (leadingColon : Bool) (segments : List String)
      (args : Option (List GenArg))
  | other (id : Nat)
deriving DecidableEq, Repr

/-- An opaque Rust expression (`syn::Expr`), as supplied by
`#[willow(vert = ...)]` / `#[willow(frag = ...)]`. -/
structure SynExpr where
  id : Nat
deriving DecidableEq, Repr

/-- The `syn::Path::is_ident(name)`: a bare single-segment path with no
leading colon and no arguments. -/
def SynType.isIdent : SynType → String → Bool
  | .path lc segs args, name => !lc && segs == [name] && args.isNone
  | _, _ => false

/-- The `is_ending_ident` from `parse.rs`: the last path segment's identifier
equals `name`. -/
def isEndingIdent (segs : List String) (name : String) : Bool :=
  match segs.getLast? with
  | some s => s = name
  | none => false

/-! ## Parsed attribute values -/

/-- A parsed field-level `#[willow(...)]` attribute (`FieldAttr` in
`parse.rs`). -/
inductive FieldAttr where
  | attribute (ty : TyTok)
  | uniform (ty : TyTok)
  | glName (name : String)
  | data
  | normalized
deriving DecidableEq, Repr

/-- A parsed struct-level `#[willow(...)]` attribute (`StructAttr` in
`parse.rs`). -/
inductive StructAttr where
  | path (p : String)
  | vert (e : SynExpr)
  | frag (e : SynExpr)
deriving DecidableEq, Repr

/-- A named struct field: its identifier, declared type, and its willow
attributes in source order. -/
structure Field where
  name : String
  ty : SynType
  attrs : List FieldAttr
deriving DecidableEq, Repr

/-- The shape of `syn::DeriveInput::data` as far as `parse_input`
distinguishes it. -/
inductive SynData where
  | structNamed (fields : List Field)
  | structUnnamed
  | notStruct
deriving DecidableEq, Repr

/-- The derive input: struct-level willow attributes in source order, the
data shape, and the struct identifier. -/
structure DeriveInput where
  attrs : List StructAttr
  data : SynData
  ident : String
deriving DecidableEq, Repr

/-! ## Parse errors and outputs -/

/-- A failure during macro expansion: either a `syn::Error` (reported as a
compile error) or a Rust panic (`expect`/`unreachable!`). -/
inductive PError where
  | err (msg : String)
  | panicked (msg : String)
deriving DecidableEq, Repr

/-- Decidable equality on `Except`, so that concrete parser runs can be
checked with `decide`. -/
instance instDecEqExcept {ε α : Type} [DecidableEq ε] [DecidableEq α] :
    DecidableEq (Except ε α) := fun a b =>
  match a, b with
  | .ok x, .ok y =>
    if h : x = y then isTrue (by rw [h]) else isFalse (by simp [h])
  | .error x, .error y =>
    if h : x = y then isTrue (by rw [h]) else isFalse (by simp [h])
  | .ok _, .error _ => isFalse (by simp)
  | .error _, .ok _ => isFalse (by simp)

/-- The `parse::Attribute`: one parsed attribute entry. -/
structure AttributeEntry where
  field : String
  ty : TyTok
  gl : String
  normalized : Bool
deriving DecidableEq, Repr

/-- The `parse::Uniform`: one parsed uniform entry. -/
structure UniformEntry where
  field : String
  gl : String
  ty : TyTok
deriving DecidableEq, Repr

/-- The `parse::FieldOutput`: the role assigned to a field. -/
inductive FieldOutput where
  | attribute (a : AttributeEntry)
  | uniform (u : UniformEntry)
  | programData (ident : String)
deriving DecidableEq, Repr

/-- The `parse::CodeSource`: where a shader's GLSL text comes from. -/
inductive CodeSource where
  | file (path : String)
  | expr (e : SynExpr)
deriving DecidableEq, Repr

/-- The `parse::Input`: the parsed model handed to the generator. -/
structure Input where
  vertexSource : CodeSource
  fragmentSource : CodeSource
  attributes : List AttributeEntry
  uniforms : List UniformEntry
  programData : String
  ident : String
  attrIdent : String
  builderIdent : String
deriving DecidableEq, Repr

/-! ## `FieldOutput::from_field` -/

/-- The parser-internal `FieldType` accumulator in `from_field`. -/
inductive FieldTypeAcc where
  | attribute (ty : TyTok)
  | uniform (ty : TyTok)
  | data
deriving DecidableEq, Repr

/-- One step of the attribute loop in `from_field`: role attributes
overwrite the accumulated `field_type`, `gl_name` overwrites the GL name,
`normalized` sets the flag. -/
def fieldAttrStep (st : Option FieldTypeAcc × String × Bool) (a : FieldAttr) :
    Option FieldTypeAcc × String × Bool :=
  match a with
  | .attribute ty => (some (.attribute ty), st.2.1, st.2.2)
  | .uniform ty => (some (.uniform ty), st.2.1, st.2.2)
  | .glName n => (st.1, n, st.2.2)
  | .data => (some .data, st.2.1, st.2.2)
  | .normalized => (st.1, st.2.1, true)

/-- Structural classification of a field's declared type, used when no
role-override attribute is present (the `match &field.ty` in
`from_field`). -/
def classifyTy (ty : SynType) : Except PError FieldTypeAcc :=
  match ty with
  | .path lc segs args =>
    if SynType.isIdent (.path lc segs args) "ProgramData" then .ok .data
    else if isEndingIdent segs "Uniform" || isEndingIdent segs "Attribute" then
      match args with
      | some l =>
        match l.head? with
        | some (.type t) =>
          if isEndingIdent segs "Attribute" then .ok (.attribute t)
          else .ok (.uniform t)
        | some (.nonType _) => .error (.err "Attribute/Uniform provided with non-type argument")
        | none => .error (.panicked "AngleBracketed arguments must be nonempty")
      | none => .error (.err "Attribute/Uniform requires a type parameter")
    else .error (.err "This field appears to be irrelevant with the GLSL")
  | _ => .error (.err "This field appears to be irrelevant with the GLSL")

/-- The `FieldOutput::from_field`: classify a field into its role. -/
def fromField (f : Field) : Except PError FieldOutput :=
  let st := f.attrs.foldl fieldAttrStep (none, f.name, false)
  let ft : Except PError FieldTypeAcc :=
    match st.1 with
    | some ft => .ok ft
    | none => classifyTy f.ty
  match ft with
  | .error e => .error e
  | .ok (.attribute ty) => .ok (.attribute ⟨f.name, ty, st.2.1, st.2.2⟩)
  | .ok (.uniform ty) => .ok (.uniform ⟨f.name, st.2.1, ty⟩)
  | .ok .data => .ok (.programData f.name)

/-! ## `parse_input` -/

/-- One step of the struct-attribute loop in `parse_input`: `path` sets both
sources to the two conventional file names, `vert`/`frag` set one source
each; later attributes overwrite earlier ones. -/
def structAttrStep (st : Option CodeSource × Option CodeSource) (a : StructAttr) :
    Option CodeSource × Option CodeSource :=
  match a with
  | .path p => (some (.file (p ++ ".vert")), some (.file (p ++ ".frag")))
  | .vert e => (some (.expr e), st.2)
  | .frag e => (st.1, some (.expr e))

/-- The field loop of `parse_input`: pushes attribute/uniform entries in
order and records the program-data field (note: a later program-data field
overwrites an earlier one). -/
def classifyFields : List Field → List AttributeEntry → List UniformEntry →
    Option String →
    Except PError (List AttributeEntry × List UniformEntry × Option String)
  | [], attrs, unifs, pd => .ok (attrs, unifs, pd)
  | f :: rest, attrs, unifs, pd =>
    match fromField f with
    | .error e => .error e
    | .ok (.attribute a) => classifyFields rest (attrs ++ [a]) unifs pd
    | .ok (.uniform u) => classifyFields rest attrs (unifs ++ [u]) pd
    | .ok (.programData i) => classifyFields rest attrs unifs (some i)

/-- The `parse_input`: the whole parser. -/
def parseInput (d : DeriveInput) : Except PError Input :=
  let src := d.attrs.foldl structAttrStep (none, none)
  match d.data with
  | .notStruct => .error (.err "willow::Program can only derive from structs")
  | .structUnnamed => .error (.err "willow::Program can only derive from named structs")
  | .structNamed fields =>
    match classifyFields fields [] [] none with
    | .error e => .error e
    | .ok (attrs, unifs, pd?) =>
      match src.1 with
      | none => .error (.err "Cannot infer vertex code")
      | some vs =>
        match src.2 with
        | none => .error (.err "Cannot infer fragment code")
        | some fs =>
          match pd? with
          | none => .error (.err "Program struct must have exactly one field with type ProgramData or #[willow(data)]")
          | some pd =>
            .ok { vertexSource := vs
                  fragmentSource := fs
                  attributes := attrs
                  uniforms := unifs
                  programData := pd
                  ident := d.ident
                  attrIdent := d.ident ++ "Attr"
                  builderIdent := d.ident ++ "Draw" }

/-- The `ProgramData` type token. -/
def tyProgramData : SynType := .path false ["ProgramData"] none

/-- The `Uniform<T>` for a concrete inner type token. -/
def tyUniform (t : TyTok) : SynType := .path false ["Uniform"] (some [.type t])

/-- The `Attribute<T>` for a concrete inner type token. -/
def tyAttribute (t : TyTok) : SynType := .path false ["Attribute"] (some [.type t])

/-! ## Generator model: the type-state builder (`gen_builder`) -/

/-- A builder type argument as it is emitted in generated code: either a
ground type token (the `()` placeholder or a concrete uniform type) or one
of the impl block's free generic parameters `HasFieldName` (identified here
by the uniform index it stands for). -/
inductive BTy where
  | ground (t : TyTok)
  | var (j : Nat)
deriving DecidableEq, Repr

/-- The `empty_generics` of setter `i` in `gen_builder`: `()` at position
`i`, the impl's free parameter at every other position.  These are the
generic arguments of the impl's *self* type, so the setter is emitted only
for instantiations matching this pattern. -/
def emptyGenerics (m i : Nat) : List BTy :=
  (List.range m).map fun j => if i = j then .ground .unit else .var j

/-- The `filled_generics` of setter `i`: the uniform's concrete declared
type at position `i`, the same free parameter elsewhere.  These are the
generic arguments of the setter's return type. -/
def filledGenerics (tys : List TyTok) (i : Nat) : List BTy :=
  (List.range tys.length).map fun j => if i = j then .ground (tys.getD i .unit) else .var j

/-- The generic arguments of the impl block containing the generated `draw`
method: every position holds the corresponding uniform's concrete declared
type and there are no free parameters. -/
def drawGenerics (tys : List TyTok) : List BTy :=
  tys.map .ground

/-- Substituting ground types for the free parameters of an emitted
generic-argument pattern. -/
def BTy.subst (σ : Nat → TyTok) : BTy → TyTok
  | .ground t => t
  | .var j => σ j

/-- A ground builder instantiation `g` is covered by an emitted impl with
generic-argument pattern `pat` iff some substitution for the impl's free
parameters yields `g`. -/
def matchesInst (pat : List BTy) (g : List TyTok) : Prop :=
  ∃ σ : Nat → TyTok, g = pat.map (BTy.subst σ)

/-- A builder value: the program reference (opaque) and one slot per
uniform, `none` while the uniform still holds `()`. -/
structure BuilderVal (V : Type) where
  program : Nat
  fields : List (Option V)
deriving DecidableEq, Repr

/-- The body of generated setter `i`: destructure the builder (binding
`program` and every other field), then rebuild it with field `i` holding
the argument.  Everything but slot `i` is passed through unchanged. -/
def setterVal {V : Type} (b : BuilderVal V) (i : Nat) (v : V) : BuilderVal V :=
  { program := b.program, fields := b.fields.set i (some v) }

/-! ## Generator model: attribute reflection (`gen_attrs`) -/

/-- The runtime outcome of a generated function that either returns a value
or panics. -/
inductive PanicOr (α : Type) where
  | ok (a : α)
  | panicked (msg : String)
deriving DecidableEq, Repr

/-- The `define_function` from `gen_attrs`: the generated `match i` has one arm
per listed value — arm `k` returns `values[k]` — and a default arm
`_ => panic!("Nonexistent field")`. -/
def defineFunction {α : Type} (values : List α) (i : Nat) : PanicOr α :=
  match values[i]? with
  | some v => .ok v
  | none => .panicked "Nonexistent field"

/-- The generated `fields_count`: the number of attribute entries. -/
def fieldsCount (input : Input) : Nat := input.attributes.length

/-- The generated `field_gl_name`: arm `i` returns the literal GL name of
attribute `i`. -/
def fieldGlName (input : Input) (i : Nat) : PanicOr String :=
  defineFunction (input.attributes.map fun a => a.gl) i

/-- The emitted expression
`::willow::offset_of!(Self => name).get_byte_offset()`, identified by the
field whose offset it takes. -/
structure OffsetExpr where
  field : String
deriving DecidableEq, Repr

/-- The generated `field_offset`: arm `i` takes the byte offset of
attribute `i`'s field. -/
def fieldOffset (input : Input) (i : Nat) : PanicOr OffsetExpr :=
  defineFunction (input.attributes.map fun a => ⟨a.field⟩) i

/-- The emitted expression `<ty as ::willow::AttributeType>::gl_type()`,
identified by the value type it dispatches on. -/
structure GlTypeExpr where
  ty : TyTok
deriving DecidableEq, Repr

/-- The generated `field_type`: arm `i` queries the scalar type code of
attribute `i`'s declared value type. -/
def fieldType (input : Input) (i : Nat) : PanicOr GlTypeExpr :=
  defineFunction (input.attributes.map fun a => ⟨a.ty⟩) i

/-- The emitted expression `<ty as ::willow::AttributeType>::num_comps()`,
identified by the value type it dispatches on. -/
structure NumCompsExpr where
  ty : TyTok
deriving DecidableEq, Repr

/-- The generated `field_num_comps`: arm `i` queries the component count of
attribute `i`'s declared value type. -/
def fieldNumComps (input : Input) (i : Nat) : PanicOr NumCompsExpr :=
  defineFunction (input.attributes.map fun a => ⟨a.ty⟩) i

/-- The generated `field_normalized`: arm `i` returns the literal
normalization flag of attribute `i`. -/
def fieldNormalized (input : Input) (i : Nat) : PanicOr Bool :=
  defineFunction (input.attributes.map fun a => a.normalized) i

/-! ## Generator model: `apply_attrs` (`gen_program_impl`) -/

/-- One GL-level step in the generated `apply_attrs` body. -/
inductive ApplyAttrsStep where
  | bindBuffer
  | bindAttr (field : String) (gl : String) (slot : Nat)
deriving DecidableEq, Repr

/-- The generated `apply_attrs` body: bind the vertex buffer, then for each
attribute (in declaration order, zipped with `0..attributes.len()`) resolve
the location of its GL name and bind the buffer column to that location
with the field index as the slot number. -/
def applyAttrsSteps (input : Input) : List ApplyAttrsStep :=
  .bindBuffer :: input.attributes.enum.map fun p => .bindAttr p.2.field p.2.gl p.1

/-! ## Runtime model: location caches (`src/program.rs`) -/

/-- An opaque `WebGlUniformLocation` handle. -/
structure UniformLocation where
  id : Nat
deriving DecidableEq, Repr

/-- The `Attribute<T>`'s runtime state: the `OnceCell<u32>` location cache. -/
structure AttrCell where
  location : Option Nat
deriving DecidableEq, Repr

/-- The `Attribute::create_from_macro`: an empty cache. -/
def AttrCell.createFromMacro : AttrCell := ⟨none⟩

/-- The GL query `Attribute::get_location` can make, as a pure oracle:
`get_attrib_location` returns an `i32` (−1 when the name is unknown). -/
structure AttrCtx where
  getAttribLocation : String → Int

/-- GL side effects issued by `Attribute::get_location`. -/
inductive AttrEffect where
  | queryAttribLocation (name : String)
  | enableVertexAttribArray (loc : Nat)
deriving DecidableEq, Repr

/-- The Rust cast `x as u32` from `i32`: truncate to 32 bits (two's
complement). -/
def u32cast (x : Int) : Nat := (x % (2 : Int) ^ 32).toNat

/-- The `Attribute::get_location`: on a cold cache, query the attribute
location, cast it to `u32`, enable that vertex-attribute array slot and
store the value; on a warm cache return the stored value with no GL
traffic. -/
def AttrCell.getLocation (cell : AttrCell) (ctx : AttrCtx) (name : String) :
    Nat × AttrCell × List AttrEffect :=
  match cell.location with
  | some l => (l, cell, [])
  | none =>
    let l := u32cast (ctx.getAttribLocation name)
    (l, ⟨some l⟩, [.queryAttribLocation name, .enableVertexAttribArray l])

/-- The `Uniform<T>`'s runtime state: the
`OnceCell<Option<WebGlUniformLocation>>` cache.  The outer `Option` records
whether resolution has run, the inner one its possibly-failed result. -/
structure UnifCell where
  location : Option (Option UniformLocation)
deriving DecidableEq, Repr

/-- The `Uniform::create_from_macro`: an empty cache. -/
def UnifCell.createFromMacro : UnifCell := ⟨none⟩

/-- The GL query `Uniform::get_location` can make, as a pure oracle. -/
structure UnifCtx where
  getUniformLocation : String → Option UniformLocation

/-- GL side effects issued by `Uniform::get_location`. -/
inductive UnifEffect where
  | queryUniformLocation (name : String)
deriving DecidableEq, Repr

/-- The `Uniform::get_location`: memoized `get_uniform_location`; a failed
(`None`) resolution is cached like a successful one. -/
def UnifCell.getLocation (cell : UnifCell) (ctx : UnifCtx) (name : String) :
    Option UniformLocation × UnifCell × List UnifEffect :=
  match cell.location with
  | some r => (r, cell, [])
  | none =>
    let r := ctx.getUniformLocation name
    (r, ⟨some r⟩, [.queryUniformLocation name])

/-! ## Runtime model: the generated `draw` body (`gen_builder`) -/

/-- One GL-level step in the generated `draw` body. -/
inductive DrawStep where
  | useProgram
  | applyUniform (gl : String) (loc : UniformLocation)
  | indexedDraw (mode : Nat) (buffer : Nat) (indices : Nat)
deriving DecidableEq, Repr

/-- The uniform loop of the generated `draw`: for each uniform in
declaration order (paired with its location cell in the program), resolve
the location; on a failed resolution stop with the error message built by
`with_context`; on success issue the value upload and continue. -/
def drawUniformLoop (ctx : UnifCtx) :
    List (String × UnifCell) → List DrawStep → List DrawStep × Option String
  | [], acc => (acc, none)
  | (gl, cell) :: rest, acc =>
    match (cell.getLocation ctx gl).1 with
    | none => (acc, some ("Could not retrieve uniform location with name \"" ++ gl ++ "\""))
    | some loc => drawUniformLoop ctx rest (acc ++ [.applyUniform gl loc])

/-- The generated `draw` body: `use_program`, then the uniform loop, then
the delegated indexed draw with the given mode, buffer and index
selection.  A failed resolution makes the `?` operator return the error to
the caller, so the indexed draw is never issued. -/
def builderDraw (unifs : List (String × UnifCell)) (ctx : UnifCtx)
    (mode buffer indices : Nat) : List DrawStep × Option String :=
  match drawUniformLoop ctx unifs [.useProgram] with
  | (acc, none) => (acc ++ [.indexedDraw mode buffer indices], none)
  | (acc, some e) => (acc, some e)

/-! ## Runtime model: `Program::draw_fully` (`src/traits.rs`) -/

/-- The `std::ops::Bound<usize>`. -/
inductive RBound where
  | included (x : Nat)
  | excluded (x : Nat)
  | unbounded
deriving DecidableEq, Repr

/-- A `RangeBounds<usize>` value, described by its two bounds. -/
structure RangeB where
  start : RBound
  stop : RBound
deriving DecidableEq, Repr

/-- Wrapping a mathematical integer into `i32` (two's complement), which is
both the Rust cast `x as i32` and release-profile wrapping arithmetic. -/
def wrap32 (x : Int) : Int :=
  if x % 2 ^ 32 < 2 ^ 31 then x % 2 ^ 32 else x % 2 ^ 32 - 2 ^ 32

/-- The Rust cast `x as i32` from `usize`. -/
def i32cast (x : Nat) : Int := wrap32 (x : Int)

/-- The outcome of `Program::draw_fully`: either the assert panics, or the
attributes are applied and `draw_arrays(mode, start, end)` is issued. -/
inductive DrawFullyResult where
  | panicked (msg : String)
  | drew (start stop : Int)
deriving DecidableEq, Repr

/-- The `Program::draw_fully`: resolve each bound to an `i32` (inclusive start
`x`, exclusive start `x − 1`, unbounded start `0`; inclusive end `x + 1`,
exclusive end `x`, unbounded end the buffer's element count), assert that
the resolved end does not exceed the count, then apply the attributes and
issue the draw call. -/
def drawFully (count : Nat) (items : RangeB) : DrawFullyResult :=
  let start : Int :=
    match items.start with
    | .included x => i32cast x
    | .excluded x => wrap32 (i32cast x - 1)
    | .unbounded => 0
  let e : Int :=
    match items.stop with
    | .included x => wrap32 (i32cast x + 1)
    | .excluded x => i32cast x
    | .unbounded => i32cast count
  if e ≤ i32cast count then .drew start e
  else .panicked "items range exceeds buffer size"

/-! ## Runtime model: `Indices::draw` (`src/index.rs`) -/

/-- Modelled from the spec: `resolve_range` is imported by `src/index.rs`
from the crate root but its definition is not among the sources under
review.  Per §4.4 of the spec it resolves an open-ended range bound
against the buffer's element count (unbounded start to 0, unbounded end to
the count) and fails fatally (a panic, not a recoverable error) when the
resolved range exceeds the buffer's length. -/
def resolveRange (items : RangeB) (len : Nat) : PanicOr (Nat × Nat) :=
  let s : Nat :=
    match items.start with
    | .included x => x
    | .excluded x => x + 1
    | .unbounded => 0
  let e : Nat :=
    match items.stop with
    | .included x => x + 1
    | .excluded x => x
    | .unbounded => len
  if e ≤ len then .ok (s, e) else .panicked "range exceeds buffer length"

/-- The outcome of `Indices::draw`: either `resolve_range` panics, or the
element buffer is bound and `draw_elements(mode, end − start, ty, start)`
is issued. -/
inductive IdxDrawResult where
  | panicked (msg : String)
  | drewElements (count : Int) (offset : Nat)
deriving DecidableEq, Repr

/-- The `Indices::draw`: resolve the selection against the index buffer's
length, then bind the element array buffer and draw the resolved
sub-range. -/
def indicesDraw (len : Nat) (items : RangeB) : IdxDrawResult :=
  match resolveRange items len with
  | .panicked m => .panicked m
  | .ok (s, e) => .drewElements ((e : Int) - (s : Int)) s

/-! ## Runtime model: `Buffer::bind_to_attr` (`src/lib.rs`) -/

/-- The `AttrStruct` trait interface of an attribute struct type `T`,
together with the memory layout quantities `mem::size_of::<T>()` and
`mem::align_of::<T>()`. -/
structure AttrStructClass where
  size : Nat
  align : Nat
  fieldNumComps : Nat → PanicOr Nat
  fieldType : Nat → PanicOr Nat
  fieldNormalized : Nat → PanicOr Bool
  fieldOffset : Nat → PanicOr Nat

/-- The argument record of a `vertex_attrib_pointer_with_i32` call. -/
structure VapCall where
  index : Nat
  numComps : Int
  tyCode : Nat
  normalized : Bool
  stride : Int
  offset : Int
deriving DecidableEq, Repr

/-- The `Buffer::<T>::bind_to_attr`: issue the vertex-attribute-pointer call
with the field's reflected component count, type code, normalization flag
and byte offset — and `mem::align_of::<T>()` as the stride.  A reflection
panic (out-of-range field index) propagates; arguments are evaluated left
to right. -/
def bindToAttr (T : AttrStructClass) (attrIndex fieldIndex : Nat) : PanicOr VapCall :=
  match T.fieldNumComps fieldIndex with
  | .panicked m => .panicked m
  | .ok nc =>
    match T.fieldType fieldIndex with
    | .panicked m => .panicked m
    | .ok tc =>
      match T.fieldNormalized fieldIndex with
      | .panicked m => .panicked m
      | .ok nm =>
        match T.fieldOffset fieldIndex with
        | .panicked m => .panicked m
        | .ok off =>
          .ok { index := attrIndex, numComps := i32cast nc, tyCode := tc,
                normalized := nm, stride := i32cast T.align, offset := i32cast off }

/-- The `#[repr(C)]` layout: round `off` up to the next multiple of the
alignment `a` (with `a ≥ 1`). -/
def alignUp (off a : Nat) : Nat := (off + a - 1) / a * a

/-- The end offset after laying out `#[repr(C)]` fields (given as
size/alignment pairs) in declaration order starting at `off`. -/
def reprCEnd : List (Nat × Nat) → Nat → Nat
  | [], off => off
  | (sz, al) :: rest, off => reprCEnd rest (alignUp off al + sz)

/-- The alignment of a `#[repr(C)]` struct: the maximum field alignment,
at least 1. -/
def reprCAlign (fields : List (Nat × Nat)) : Nat :=
  fields.foldl (fun m p => max m p.2) 1

/-- The size of a `#[repr(C)]` struct: the end offset rounded up to the
struct alignment. -/
def reprCSize (fields : List (Nat × Nat)) : Nat :=
  alignUp (reprCEnd fields 0) (reprCAlign fields)

/-- Whether a struct-level attribute supplies a vertex shader source. -/
def providesVertex : StructAttr → Bool
  | .path _ => true
  | .vert _ => true
  | .frag _ => false

/-- Whether a struct-level attribute supplies a fragment shader source. -/
def providesFragment : StructAttr → Bool
  | .path _ => true
  | .frag _ => true
  | .vert _ => false

/-- The effect of one field attribute on the accumulated role only. -/
def roleStep (acc : Option FieldTypeAcc) (a : FieldAttr) : Option FieldTypeAcc :=
  match a with
  | .attribute ty => some (.attribute ty)
  | .uniform ty => some (.uniform ty)
  | .data => some .data
  | .glName _ => acc
  | .normalized => acc

/-- The last role-determining attribute (`attribute`/`uniform`/`data`) of a
field's willow attribute list, if any. -/
def lastRoleAttr (attrs : List FieldAttr) : Option FieldTypeAcc :=
  attrs.foldl roleStep none

/-- Whether a declared type structurally matches one of the three
recognized patterns (`ProgramData`, last segment `Uniform`, last segment
`Attribute`). -/
def typeMatchesPattern : SynType → Bool
  | .path lc segs args =>
    SynType.isIdent (.path lc segs args) "ProgramData" ||
      isEndingIdent segs "Uniform" || isEndingIdent segs "Attribute"
  | .other _ => false

/-- The role recorded in a classification result. -/
def outputRole : FieldOutput → FieldTypeAcc
  | .attribute a => .attribute a.ty
  | .uniform u => .uniform u.ty
  | .programData _ => .data

/-- The attribute entries a field list classifies to, in declaration
order. -/
def attributesOf (fs : List Field) : List AttributeEntry :=
  fs.filterMap fun f =>
    match fromField f with
    | .ok (.attribute a) => some a
    | _ => none

/-- The uniform entries a field list classifies to, in declaration
order. -/
def uniformsOf (fs : List Field) : List UniformEntry :=
  fs.filterMap fun f =>
    match fromField f with
    | .ok (.uniform u) => some u
    | _ => none

/-- The field list of the example crate's `Foo` struct, used by witnesses:
`data: ProgramData`, `u_alpha: Uniform<f32>`, `a_color: Attribute<T>`. -/
def fooFields : List Field :=
  [ ⟨"data", tyProgramData, []⟩
  , ⟨"u_alpha", tyUniform (.tok 0), []⟩
  , ⟨"a_color", tyAttribute (.tok 1), []⟩ ]

/-- The derive input of the example `Foo` struct. -/
def fooDerive : DeriveInput :=
  { attrs := [.path "foo"], data := .structNamed fooFields, ident := "Foo" }

/-- The parsed model of the example `Foo` struct. -/
def fooParsed : Input :=
  { vertexSource := .file "foo.vert"
    fragmentSource := .file "foo.frag"
    attributes := [⟨"a_color", .tok 1, "a_color", false⟩]
    uniforms := [⟨"u_alpha", "u_alpha", .tok 0⟩]
    programData := "data"
    ident := "Foo"
    attrIdent := "FooAttr"
    builderIdent := "FooDraw" }

/-- The numeric value carried by a bound (0 for an unbounded bound); used
only to state smallness side conditions. -/
def RBound.val : RBound → Nat
  | .included x => x
  | .excluded x => x
  | .unbounded => 0

/-- The "resolved end" of a range selection as the spec words it (a
spec-side definition, for comparison with the code's `drawFully`):
an inclusive end resolves to `x + 1`, an exclusive end to `x`, and an
unbounded end to the buffer's element count. -/
def specResolvedEnd (items : RangeB) (count : Nat) : Nat :=
  match items.stop with
  | .included x => x + 1
  | .excluded x => x
  | .unbounded => count

/-- The field layout of an attribute struct with two `f32` fields
(size 4, alignment 4 each): `size_of` is 8 while `align_of` is 4. -/
def twoF32Fields : List (Nat × Nat) := [(4, 4), (4, 4)]

/-- The `AttrStruct` implementation the generator would derive for a
two-`f32`-field attribute struct (GL type code 5126 = `FLOAT`). -/
def twoF32AttrStruct : AttrStructClass :=
  { size := reprCSize twoF32Fields
    align := reprCAlign twoF32Fields
    fieldNumComps := defineFunction [1, 1]
    fieldType := defineFunction [5126, 5126]
    fieldNormalized := defineFunction [false, false]
    fieldOffset := defineFunction [0, 4] }

/-! ## Helper lemmas -/

theorem structAttrFold_fst_none (attrs : List StructAttr)
    (st : Option CodeSource × Option CodeSource) :
    (attrs.foldl structAttrStep st).1 = none ↔
      st.1 = none ∧ ∀ a ∈ attrs, providesVertex a = false := by
  induction attrs generalizing st with
  | nil => simp
  | cons a rest ih =>
    simp only [List.foldl_cons, ih, List.mem_cons]
    cases a <;> simp [structAttrStep, providesVertex]

theorem structAttrFold_snd_none (attrs : List StructAttr)
    (st : Option CodeSource × Option CodeSource) :
    (attrs.foldl structAttrStep st).2 = none ↔
      st.2 = none ∧ ∀ a ∈ attrs, providesFragment a = false := by
  induction attrs generalizing st with
  | nil => simp
  | cons a rest ih =>
    simp only [List.foldl_cons, ih, List.mem_cons]
    cases a <;> simp [structAttrStep, providesFragment]

/-! ## C1 -/

/-- C1 (code bug): the parser accepts a struct with *two* fields of
type `ProgramData` — no missing/ambiguous program-data error is raised;
the later field silently overwrites the earlier one, contradicting the
macro's own documentation and error text ("must have exactly one field
with type ProgramData").  This theorem evaluates the parser at the failing
input. -/
theorem c1_duplicate_program_data_accepted :
    parseInput
      { attrs := [.path "foo"]
        data := .structNamed
          [⟨"data1", tyProgramData, []⟩, ⟨"data2", tyProgramData, []⟩]
        ident := "Foo" } =
    .ok { vertexSource := .file "foo.vert", fragmentSource := .file "foo.frag",
          attributes := [], uniforms := [], programData := "data2",
          ident := "Foo", attrIdent := "FooAttr", builderIdent := "FooDraw" } := by
  decide

/-! ## C2 -/

/-- C2 (counterexample): supplying *both* the `path` form and the
inline `vert`/`frag` form is not rejected — the later attributes simply
overwrite the sources set by the earlier ones and parsing succeeds. -/
theorem c2_both_source_forms_accepted :
    parseInput
      { attrs := [.path "foo", .vert ⟨0⟩, .frag ⟨1⟩]
        data := .structNamed [⟨"data", tyProgramData, []⟩]
        ident := "Foo" } =
    .ok { vertexSource := .expr ⟨0⟩, fragmentSource := .expr ⟨1⟩,
          attributes := [], uniforms := [], programData := "data",
          ident := "Foo", attrIdent := "FooAttr", builderIdent := "FooDraw" } := by
  decide

/-- C2 (amended): for a named struct whose fields all classify, parsing
fails with "Cannot infer vertex code" when no struct attribute supplies a
vertex source, and with "Cannot infer fragment code" when a vertex source
is supplied but no fragment source is; supplying both forms is *not*
rejected (the later attribute wins per shader slot —
`c2_both_source_forms_accepted`). -/
theorem c2_missing_source_is_error (d : DeriveInput) (fs : List Field)
    (r : List AttributeEntry × List UniformEntry × Option String)
    (hdata : d.data = .structNamed fs)
    (hfields : classifyFields fs [] [] none = .ok r) :
    ((∀ a ∈ d.attrs, providesVertex a = false) →
      parseInput d = .error (.err "Cannot infer vertex code")) ∧
    ((¬ ∀ a ∈ d.attrs, providesVertex a = false) →
      (∀ a ∈ d.attrs, providesFragment a = false) →
      parseInput d = .error (.err "Cannot infer fragment code")) := by
  obtain ⟨A, U, P⟩ := r
  constructor
  · intro hv
    have h1 : (d.attrs.foldl structAttrStep (none, none)).1 = none :=
      (structAttrFold_fst_none d.attrs (none, none)).mpr ⟨rfl, hv⟩
    unfold parseInput
    rw [hdata]
    simp only [hfields, h1]
  · intro hv hf
    have h2 : (d.attrs.foldl structAttrStep (none, none)).2 = none :=
      (structAttrFold_snd_none d.attrs (none, none)).mpr ⟨rfl, hf⟩
    have h1 : (d.attrs.foldl structAttrStep (none, none)).1 ≠ none := by
      intro hc
      exact hv ((structAttrFold_fst_none d.attrs (none, none)).mp hc).2
    obtain ⟨vs, hvs⟩ := Option.ne_none_iff_exists'.mp h1
    unfold parseInput
    rw [hdata]
    simp only [hfields, hvs, h2]

/-- C2 (witness): the amended theorem applied at concrete inputs — a
struct with no willow attributes fails with the vertex error, and one with
only a `vert` attribute fails with the fragment error. -/
theorem c2_missing_source_is_error_witness :
    parseInput { attrs := [], data := .structNamed [⟨"data", tyProgramData, []⟩], ident := "X" } =
      .error (.err "Cannot infer vertex code") ∧
    parseInput { attrs := [.vert ⟨0⟩], data := .structNamed [⟨"data", tyProgramData, []⟩], ident := "X" } =
      .error (.err "Cannot infer fragment code") :=
  ⟨(c2_missing_source_is_error
      { attrs := [], data := .structNamed [⟨"data", tyProgramData, []⟩], ident := "X" }
      [⟨"data", tyProgramData, []⟩] ([], [], some "data") rfl (by decide)).1 (by decide),
   (c2_missing_source_is_error
      { attrs := [.vert ⟨0⟩], data := .structNamed [⟨"data", tyProgramData, []⟩], ident := "X" }
      [⟨"data", tyProgramData, []⟩] ([], [], some "data") rfl (by decide)).2
      (by decide) (by decide)⟩

/-! ## C7 -/

theorem fieldAttrFold_fst (attrs : List FieldAttr)
    (st : Option FieldTypeAcc × String × Bool) :
    (attrs.foldl fieldAttrStep st).1 = attrs.foldl roleStep st.1 := by
  induction attrs generalizing st with
  | nil => rfl
  | cons a rest ih => cases a <;> simp [List.foldl_cons, fieldAttrStep, roleStep, ih]

theorem classifyTy_irrelevant (ty : SynType) (h : typeMatchesPattern ty = false) :
    classifyTy ty = .error (.err "This field appears to be irrelevant with the GLSL") := by
  cases ty with
  | other id => rfl
  | path lc segs args =>
    simp only [typeMatchesPattern, Bool.or_eq_false_iff] at h
    obtain ⟨⟨h1, h2⟩, h3⟩ := h
    simp [classifyTy, h1, h2, h3]

/-- C7: field classification.  An explicit role-override attribute (the
last one, if several) decides the role — the declared type is then ignored
entirely — and when no override is present a type matching none of the
three structural patterns fails with the "field appears irrelevant"
error.  (That each classified field gets exactly one role is structural:
`fromField` returns a single `FieldOutput`.) -/
theorem c7_field_classification (f : Field) :
    (∀ r, lastRoleAttr f.attrs = some r →
      (∀ ty', fromField { f with ty := ty' } = fromField f) ∧
      ∃ out, fromField f = .ok out ∧ outputRole out = r) ∧
    (lastRoleAttr f.attrs = none → typeMatchesPattern f.ty = false →
      fromField f = .error (.err "This field appears to be irrelevant with the GLSL")) := by
  obtain ⟨fn, fty, fattrs⟩ := f
  constructor
  · intro r hr
    simp only [lastRoleAttr] at hr
    constructor
    · intro ty'
      simp only [fromField, fieldAttrFold_fst, hr]
    · simp only [fromField, fieldAttrFold_fst, hr]
      cases r <;> exact ⟨_, rfl, rfl⟩
  · intro hnone hty
    simp only [lastRoleAttr] at hnone
    simp only [fromField, fieldAttrFold_fst, hnone,
      classifyTy_irrelevant fty hty]

/-- C7 (witness): the theorem applied to a field whose override forces
the Uniform role despite an unrelated declared type, and to a field with
no override and an unrecognized type. -/
theorem c7_field_classification_witness :
    (fromField ⟨"x", .other 9, [.uniform (.tok 5)]⟩ =
      fromField ⟨"x", .other 3, [.uniform (.tok 5)]⟩) ∧
    (fromField ⟨"y", .other 3, []⟩ =
      .error (.err "This field appears to be irrelevant with the GLSL")) :=
  ⟨((c7_field_classification ⟨"x", .other 3, [.uniform (.tok 5)]⟩).1
      (.uniform (.tok 5)) (by decide)).1 (.other 9),
   (c7_field_classification ⟨"y", .other 3, []⟩).2 (by decide) (by decide)⟩

/-! ## C5 -/

theorem classifyFields_ok (fs : List Field) (attrs : List AttributeEntry)
    (unifs : List UniformEntry) (pd : Option String)
    (A : List AttributeEntry) (U : List UniformEntry) (P : Option String)
    (h : classifyFields fs attrs unifs pd = .ok (A, U, P)) :
    A = attrs ++ attributesOf fs ∧ U = unifs ++ uniformsOf fs := by
  induction fs generalizing attrs unifs pd with
  | nil =>
    simp only [classifyFields, Except.ok.injEq, Prod.mk.injEq] at h
    obtain ⟨h1, h2, _⟩ := h
    simp [attributesOf, uniformsOf, ← h1, ← h2]
  | cons f rest ih =>
    simp only [classifyFields] at h
    rcases hf : fromField f with e | out
    · rw [hf] at h; cases h
    · rw [hf] at h
      rcases out with a | u | i
      · obtain ⟨hA, hU⟩ := ih _ _ _ h
        constructor
        · rw [hA]; simp [attributesOf, List.filterMap_cons, hf]
        · rw [hU]; simp [uniformsOf, List.filterMap_cons, hf]
      · obtain ⟨hA, hU⟩ := ih _ _ _ h
        constructor
        · rw [hA]; simp [attributesOf, List.filterMap_cons, hf]
        · rw [hU]; simp [uniformsOf, List.filterMap_cons, hf]
      · obtain ⟨hA, hU⟩ := ih _ _ _ h
        constructor
        · rw [hA]; simp [attributesOf, List.filterMap_cons, hf]
        · rw [hU]; simp [uniformsOf, List.filterMap_cons, hf]

/-- Success inversion for `parseInput`: the attribute and uniform lists of
the output are exactly what the field loop produced from empty
accumulators. -/
theorem parseInput_ok_inv (d : DeriveInput) (fs : List Field) (out : Input)
    (hdata : d.data = .structNamed fs) (hok : parseInput d = .ok out) :
    ∃ P, classifyFields fs [] [] none = .ok (out.attributes, out.uniforms, P) := by
  simp only [parseInput, hdata] at hok
  rcases hcf : classifyFields fs [] [] none with e | ⟨A, U, P⟩
  · rw [hcf] at hok; cases hok
  · rw [hcf] at hok
    rcases hv : (d.attrs.foldl structAttrStep (none, none)).1 with _ | vs
    · rw [hv] at hok; cases hok
    · rw [hv] at hok
      rcases hfr : (d.attrs.foldl structAttrStep (none, none)).2 with _ | fscd
      · rw [hfr] at hok; cases hok
      · rw [hfr] at hok
        rcases P with _ | pd
        · cases hok
        · simp only [Except.ok.injEq] at hok
          subst hok
          exact ⟨some pd, rfl⟩

theorem applyAttrsSteps_get (input : Input) (i : Nat)
    (h : i < input.attributes.length) :
    (applyAttrsSteps input).get? (i + 1) =
      some (.bindAttr ((input.attributes.get ⟨i, h⟩).field)
        ((input.attributes.get ⟨i, h⟩).gl) i) := by
  simp [applyAttrsSteps, List.getElem?_map, List.getElem?_enum,
    List.getElem?_eq_getElem h]

/-- C5: a valid struct's field order is preserved into the parsed
Attribute and Uniform lists (they are the in-order projections of the
classified fields), and the generated `apply_attrs` body binds the
attribute at declared position `i` (counting attribute fields only) to
vertex-attribute slot exactly `i`. -/
theorem c5_order_and_slots (d : DeriveInput) (fs : List Field) (out : Input)
    (hdata : d.data = .structNamed fs) (hok : parseInput d = .ok out) :
    out.attributes = attributesOf fs ∧ out.uniforms = uniformsOf fs ∧
    ∀ i (h : i < out.attributes.length),
      (applyAttrsSteps out).get? (i + 1) =
        some (.bindAttr ((out.attributes.get ⟨i, h⟩).field)
          ((out.attributes.get ⟨i, h⟩).gl) i) := by
  obtain ⟨P, hcf⟩ := parseInput_ok_inv d fs out hdata hok
  obtain ⟨hA, hU⟩ := classifyFields_ok fs [] [] none _ _ _ hcf
  exact ⟨by simpa using hA, by simpa using hU,
    fun i h => applyAttrsSteps_get out i h⟩

/-- C5 (witness): the theorem applied to the example `Foo` struct — its
single attribute field `a_color` is bound to slot 0. -/
theorem c5_order_and_slots_witness :
    fooParsed.attributes = attributesOf fooFields ∧
    fooParsed.uniforms = uniformsOf fooFields ∧
    (applyAttrsSteps fooParsed).get? 1 = some (.bindAttr "a_color" "a_color" 0) :=
  ⟨(c5_order_and_slots fooDerive fooFields fooParsed rfl (by decide)).1,
   (c5_order_and_slots fooDerive fooFields fooParsed rfl (by decide)).2.1,
   (c5_order_and_slots fooDerive fooFields fooParsed rfl (by decide)).2.2 0 (by decide)⟩

/-! ## C6 -/

theorem defineFunction_lt {α : Type} (values : List α) (i : Nat)
    (h : i < values.length) :
    defineFunction values i = .ok (values.get ⟨i, h⟩) := by
  simp [defineFunction, List.getElem?_eq_getElem h]

theorem defineFunction_ge {α : Type} (values : List α) (i : Nat)
    (h : values.length ≤ i) :
    defineFunction values i = .panicked "Nonexistent field" := by
  simp [defineFunction, List.getElem?_eq_none h]

/-- C6: the generated reflection functions.  `fields_count` returns the
number of attribute fields; for every index `i < N` each per-index
function returns the declared datum of the attribute at declaration index
`i`; for every index `i ≥ N` each function hits the default match arm and
panics with "Nonexistent field" — so under the precondition `i < N` the
panic arm is never reached. -/
theorem c6_reflection_bounds (input : Input) (i : Nat) :
    fieldsCount input = input.attributes.length ∧
    (∀ h : i < input.attributes.length,
      fieldGlName input i = .ok ((input.attributes.get ⟨i, h⟩).gl) ∧
      fieldOffset input i = .ok ⟨(input.attributes.get ⟨i, h⟩).field⟩ ∧
      fieldType input i = .ok ⟨(input.attributes.get ⟨i, h⟩).ty⟩ ∧
      fieldNumComps input i = .ok ⟨(input.attributes.get ⟨i, h⟩).ty⟩ ∧
      fieldNormalized input i = .ok ((input.attributes.get ⟨i, h⟩).normalized)) ∧
    (input.attributes.length ≤ i →
      fieldGlName input i = .panicked "Nonexistent field" ∧
      fieldOffset input i = .panicked "Nonexistent field" ∧
      fieldType input i = .panicked "Nonexistent field" ∧
      fieldNumComps input i = .panicked "Nonexistent field" ∧
      fieldNormalized input i = .panicked "Nonexistent field") := by
  refine ⟨rfl, fun h => ?_, fun h => ?_⟩
  · have hm : i < (input.attributes.map fun a => a.gl).length := by simpa using h
    refine ⟨?_, ?_, ?_, ?_, ?_⟩ <;>
      simp [fieldGlName, fieldOffset, fieldType, fieldNumComps, fieldNormalized,
        defineFunction, List.getElem?_map, List.getElem?_eq_getElem h]
  · refine ⟨?_, ?_, ?_, ?_, ?_⟩ <;>
      [exact defineFunction_ge _ i (by simpa using h);
       exact defineFunction_ge _ i (by simpa using h);
       exact defineFunction_ge _ i (by simpa using h);
       exact defineFunction_ge _ i (by simpa using h);
       exact defineFunction_ge _ i (by simpa using h)]

/-- C6 (witness): the theorem applied to the example `Foo` struct's
parsed model at the in-range index 0 and the out-of-range index 5. -/
theorem c6_reflection_bounds_witness :
    fieldGlName fooParsed 0 = .ok "a_color" ∧
    fieldNormalized fooParsed 0 = .ok false ∧
    fieldGlName fooParsed 5 = .panicked "Nonexistent field" :=
  ⟨((c6_reflection_bounds fooParsed 0).2.1 (by decide)).1,
   ((c6_reflection_bounds fooParsed 0).2.1 (by decide)).2.2.2.2,
   ((c6_reflection_bounds fooParsed 5).2.2 (by decide)).1⟩

/-! ## C4 -/

theorem matchesInst_empty (m i : Nat) (hi : i < m) (g : List TyTok) :
    matchesInst (emptyGenerics m i) g ↔ g.length = m ∧ g[i]? = some .unit := by
  constructor
  · rintro ⟨σ, rfl⟩
    refine ⟨by simp [emptyGenerics], ?_⟩
    simp [emptyGenerics, List.map_map, List.getElem?_map, List.getElem?_range hi,
      BTy.subst]
  · rintro ⟨hlen, hget⟩
    refine ⟨fun j => g.getD j .unit, ?_⟩
    apply List.ext_getElem?
    intro n
    simp only [emptyGenerics, List.map_map, List.getElem?_map]
    by_cases hn : n < m
    · rw [List.getElem?_range hn]
      rcases eq_or_ne i n with rfl | hne
      · simpa [BTy.subst] using hget
      · have hn' : n < g.length := hlen ▸ hn
        simp [BTy.subst, hne, List.getD_eq_getElem?_getD,
          List.getElem?_eq_getElem hn']
    · have h1 : g[n]? = none := List.getElem?_eq_none (by omega)
      have h2 : (List.range m)[n]? = none := List.getElem?_eq_none (by simpa using hn)
      simp [h1, h2]

theorem matchesInst_draw (tys : List TyTok) (g : List TyTok) :
    matchesInst (drawGenerics tys) g ↔ g = tys := by
  constructor
  · rintro ⟨σ, rfl⟩
    simp [drawGenerics, List.map_map, Function.comp_def, BTy.subst]
  · rintro rfl
    exact ⟨fun _ => .unit,
      by simp [drawGenerics, List.map_map, Function.comp_def, BTy.subst]⟩

/-- C4: the generated setter for uniform `i`: it is emitted only for
builder instantiations whose `i`-th parameter is the `()` placeholder
(with every other parameter free); its return type changes exactly the
`i`-th parameter to the uniform's concrete declared type; its body passes
the program reference and every other field through unchanged, storing the
argument in slot `i`; and — provided the concrete type is not itself
`()` — the returned instantiation no longer matches the setter (calling it
twice cannot type-check) and an instantiation still holding `()` at `i`
never matches the draw impl (omitting the setter cannot type-check). -/
theorem c4_setter_type_state (tys : List TyTok) (i : Nat) (hi : i < tys.length) :
    (∀ g : List TyTok, matchesInst (emptyGenerics tys.length i) g ↔
      g.length = tys.length ∧ g[i]? = some .unit) ∧
    (∀ σ : Nat → TyTok, (filledGenerics tys i).map (BTy.subst σ) =
      ((emptyGenerics tys.length i).map (BTy.subst σ)).set i (tys.get ⟨i, hi⟩)) ∧
    (∀ (V : Type) (b : BuilderVal V) (v : V),
      (setterVal b i v).program = b.program ∧
      (i < b.fields.length → (setterVal b i v).fields[i]? = some (some v)) ∧
      ∀ j, j ≠ i → (setterVal b i v).fields[j]? = b.fields[j]?) ∧
    (tys.get ⟨i, hi⟩ ≠ .unit →
      (∀ g : List TyTok, g.length = tys.length →
        ¬ matchesInst (emptyGenerics tys.length i) (g.set i (tys.get ⟨i, hi⟩))) ∧
      (∀ g : List TyTok, g[i]? = some .unit →
        ¬ matchesInst (drawGenerics tys) g)) := by
  refine ⟨fun g => matchesInst_empty tys.length i hi g, fun σ => ?_, ?_, fun hne => ⟨?_, ?_⟩⟩
  · apply List.ext_getElem?
    intro n
    simp only [filledGenerics, emptyGenerics, List.map_map, List.getElem?_map,
      List.getElem?_set]
    by_cases hn : n < tys.length
    · rw [List.getElem?_range hn]
      rcases eq_or_ne i n with rfl | hne
      · simp [BTy.subst, hi, List.getD_eq_getElem?_getD,
          List.getElem?_eq_getElem hi]
      · simp [BTy.subst, hne]
    · have h2 : (List.range tys.length)[n]? = none :=
        List.getElem?_eq_none (by simpa using hn)
      have hin : i ≠ n := by omega
      simp [h2, hin]
  · intro V b v
    refine ⟨rfl, fun hlt => ?_, fun j hj => ?_⟩
    · exact List.getElem?_set_self hlt
    · simpa [setterVal] using List.getElem?_set_ne (a := some v) (l := b.fields) hj.symm
  · intro g hlen hm
    rw [matchesInst_empty tys.length i hi] at hm
    obtain ⟨_, hget⟩ := hm
    have hig : i < g.length := hlen ▸ hi
    rw [List.getElem?_set, if_pos rfl, if_pos hig] at hget
    exact hne (by simpa [List.get_eq_getElem] using hget)
  · intro g hget hm
    rw [matchesInst_draw] at hm
    subst hm
    rw [List.getElem?_eq_getElem hi] at hget
    exact hne (by simpa [List.get_eq_getElem] using hget)

/-- C4 (witness): the theorem instantiated at a single uniform of
concrete type `tok 0` — the empty instantiation matches the setter, the
filled one does not, the filled one alone matches draw, and the setter
body stores the value while keeping the program reference. -/
theorem c4_setter_type_state_witness :
    matchesInst (emptyGenerics 1 0) [.unit] ∧
    (¬ matchesInst (emptyGenerics 1 0) ([TyTok.unit].set 0 (.tok 0))) ∧
    (¬ matchesInst (drawGenerics [.tok 0]) [.unit]) ∧
    (setterVal (V := Nat) ⟨7, [none]⟩ 0 42).program = 7 ∧
    (setterVal (V := Nat) ⟨7, [none]⟩ 0 42).fields[0]? = some (some 42) :=
  ⟨((c4_setter_type_state [.tok 0] 0 (by decide)).1 [.unit]).mpr ⟨rfl, rfl⟩,
   ((c4_setter_type_state [.tok 0] 0 (by decide)).2.2.2 (by decide)).1 [.unit] rfl,
   ((c4_setter_type_state [.tok 0] 0 (by decide)).2.2.2 (by decide)).2 [.unit] rfl,
   ((c4_setter_type_state [.tok 0] 0 (by decide)).2.2.1 Nat ⟨7, [none]⟩ 42).1,
   ((c4_setter_type_state [.tok 0] 0 (by decide)).2.2.1 Nat ⟨7, [none]⟩ 42).2.1
     (by decide)⟩

/-! ## C3 -/

theorem drawUniformLoop_all_ok (ctx : UnifCtx) (l : List (String × UnifCell))
    (h : ∀ p ∈ l, ((p.2).getLocation ctx p.1).1 ≠ none) (acc : List DrawStep) :
    drawUniformLoop ctx l acc =
      (acc ++ l.map (fun p => .applyUniform p.1 (((p.2).getLocation ctx p.1).1.getD ⟨0⟩)),
       none) := by
  induction l generalizing acc with
  | nil => simp [drawUniformLoop]
  | cons p rest ih =>
    obtain ⟨gl, cell⟩ := p
    have hp := h (gl, cell) (List.mem_cons_self _ _)
    rcases hr : (cell.getLocation ctx gl).1 with _ | loc
    · exact absurd hr hp
    · simp only [drawUniformLoop, hr]
      rw [ih (fun q hq => h q (List.mem_cons_of_mem _ hq))]
      simp [hr]

theorem drawUniformLoop_first_fail (ctx : UnifCtx) (pre : List (String × UnifCell))
    (gl : String) (cell : UnifCell) (post : List (String × UnifCell))
    (hpre : ∀ p ∈ pre, ((p.2).getLocation ctx p.1).1 ≠ none)
    (hfail : (cell.getLocation ctx gl).1 = none) (acc : List DrawStep) :
    drawUniformLoop ctx (pre ++ (gl, cell) :: post) acc =
      (acc ++ pre.map (fun p => .applyUniform p.1 (((p.2).getLocation ctx p.1).1.getD ⟨0⟩)),
       some ("Could not retrieve uniform location with name \"" ++ gl ++ "\"")) := by
  induction pre generalizing acc with
  | nil => simp [drawUniformLoop, hfail]
  | cons p rest ih =>
    obtain ⟨gl', cell'⟩ := p
    have hp := hpre (gl', cell') (List.mem_cons_self _ _)
    rcases hr : (cell'.getLocation ctx gl').1 with _ | loc
    · exact absurd hr hp
    · simp only [List.cons_append, drawUniformLoop, hr, List.append_eq]
      rw [ih (fun q hq => hpre q (List.mem_cons_of_mem _ hq))]
      simp [hr]

/-- C3: the generated `draw` method of the type-state builder.  It is
emitted only for the builder instantiation where every type parameter is
the corresponding uniform's concrete declared type; its body processes
uniforms in declaration order: when every location resolves it uploads
each value in order and finally delegates to the indexed draw with the
given mode, buffer and index selection; when some location fails to
resolve (a shader may legitimately optimize a uniform away), the first
failure aborts with a recoverable error naming that uniform's GL name and
the indexed draw is never issued. -/
theorem c3_draw_method (tys : List TyTok) (unifs : List (String × UnifCell))
    (ctx : UnifCtx) (mode buffer indices : Nat) :
    (∀ g, matchesInst (drawGenerics tys) g ↔ g = tys) ∧
    ((∀ p ∈ unifs, ((p.2).getLocation ctx p.1).1 ≠ none) →
      builderDraw unifs ctx mode buffer indices =
        (.useProgram ::
          (unifs.map fun p => .applyUniform p.1 (((p.2).getLocation ctx p.1).1.getD ⟨0⟩)) ++
          [.indexedDraw mode buffer indices], none)) ∧
    (∀ pre gl cell post, unifs = pre ++ (gl, cell) :: post →
      (∀ p ∈ pre, ((p.2).getLocation ctx p.1).1 ≠ none) →
      (cell.getLocation ctx gl).1 = none →
      builderDraw unifs ctx mode buffer indices =
        (.useProgram ::
          (pre.map fun p => .applyUniform p.1 (((p.2).getLocation ctx p.1).1.getD ⟨0⟩)),
         some ("Could not retrieve uniform location with name \"" ++ gl ++ "\"")) ∧
      DrawStep.indexedDraw mode buffer indices ∉
        (builderDraw unifs ctx mode buffer indices).1) := by
  refine ⟨fun g => matchesInst_draw tys g, fun h => ?_, ?_⟩
  · unfold builderDraw
    rw [drawUniformLoop_all_ok ctx unifs h [.useProgram]]
    simp
  · intro pre gl cell post hsplit hpre hfail
    subst hsplit
    unfold builderDraw
    rw [drawUniformLoop_first_fail ctx pre gl cell post hpre hfail [.useProgram]]
    refine ⟨by simp, ?_⟩
    simp only [List.cons_append, List.nil_append, List.mem_cons, List.mem_map]
    rintro (h1 | ⟨p, -, h2⟩)
    · simp at h1
    · simp at h2

/-- C3 (witness): the theorem applied to two concrete programs with one
uniform `u_alpha` — one whose context resolves the location (full trace
ending in the indexed draw) and one whose context does not (error naming
`u_alpha`, no indexed draw). -/
theorem c3_draw_method_witness :
    builderDraw [("u_alpha", ⟨none⟩)] ⟨fun _ => some ⟨3⟩⟩ 4 5 6 =
      ([.useProgram, .applyUniform "u_alpha" ⟨3⟩, .indexedDraw 4 5 6], none) ∧
    builderDraw [("u_alpha", ⟨none⟩)] ⟨fun _ => none⟩ 4 5 6 =
      ([.useProgram], some "Could not retrieve uniform location with name \"u_alpha\"") ∧
    DrawStep.indexedDraw 4 5 6 ∉
      (builderDraw [("u_alpha", ⟨none⟩)] ⟨fun _ => none⟩ 4 5 6).1 :=
  ⟨by
    have h := (c3_draw_method [.tok 0] [("u_alpha", ⟨none⟩)] ⟨fun _ => some ⟨3⟩⟩ 4 5 6).2.1
      (by intro p hp; simp only [List.mem_singleton] at hp; subst hp; decide)
    simpa [UnifCell.getLocation] using h,
   ((c3_draw_method [.tok 0] [("u_alpha", ⟨none⟩)] ⟨fun _ => none⟩ 4 5 6).2.2
      [] "u_alpha" ⟨none⟩ [] rfl (by simp) (by decide)).1.trans (by simp),
   ((c3_draw_method [.tok 0] [("u_alpha", ⟨none⟩)] ⟨fun _ => none⟩ 4 5 6).2.2
      [] "u_alpha" ⟨none⟩ [] rfl (by simp) (by decide)).2⟩

/-! ## C8 -/

/-- C8: each location cache resolves at most once.  A cold
`Attribute::get_location` queries the location and enables the
vertex-attribute array slot as part of that first resolution; a cold
`Uniform::get_location` queries the uniform location, caching even a
failed (`None`) result; in both cases the result is stored, and any
subsequent call — with *any* context and name — returns the cached value,
leaves the cell unchanged, and issues no GL traffic. -/
theorem c8_location_memoization :
    (∀ (cell : AttrCell) (ctx : AttrCtx) (name : String),
      (cell.location = none →
        (cell.getLocation ctx name).1 = u32cast (ctx.getAttribLocation name) ∧
        (cell.getLocation ctx name).2.2 =
          [.queryAttribLocation name,
           .enableVertexAttribArray (u32cast (ctx.getAttribLocation name))]) ∧
      (cell.getLocation ctx name).2.1.location = some (cell.getLocation ctx name).1 ∧
      ∀ (ctx' : AttrCtx) (name' : String),
        ((cell.getLocation ctx name).2.1).getLocation ctx' name' =
          ((cell.getLocation ctx name).1, (cell.getLocation ctx name).2.1, [])) ∧
    (∀ (cell : UnifCell) (ctx : UnifCtx) (name : String),
      (cell.location = none →
        (cell.getLocation ctx name).1 = ctx.getUniformLocation name ∧
        (cell.getLocation ctx name).2.2 = [.queryUniformLocation name]) ∧
      (cell.getLocation ctx name).2.1.location = some (cell.getLocation ctx name).1 ∧
      ∀ (ctx' : UnifCtx) (name' : String),
        ((cell.getLocation ctx name).2.1).getLocation ctx' name' =
          ((cell.getLocation ctx name).1, (cell.getLocation ctx name).2.1, [])) := by
  constructor
  · intro cell ctx name
    rcases cell with ⟨_ | l⟩
    · exact ⟨fun _ => ⟨rfl, rfl⟩, rfl, fun ctx' name' => rfl⟩
    · exact ⟨fun h => (nomatch h), rfl, fun ctx' name' => rfl⟩
  · intro cell ctx name
    rcases cell with ⟨_ | r⟩
    · exact ⟨fun _ => ⟨rfl, rfl⟩, rfl, fun ctx' name' => rfl⟩
    · exact ⟨fun h => (nomatch h), rfl, fun ctx' name' => rfl⟩

/-- C8 (witness): the theorem applied at cold cells with concrete
contexts — including a failed uniform resolution, whose `none` outcome is
cached and returned without requerying under a context that would now
succeed. -/
theorem c8_location_memoization_witness :
    (AttrCell.getLocation ⟨none⟩ ⟨fun _ => 3⟩ "a").2.2 =
      [.queryAttribLocation "a", .enableVertexAttribArray (u32cast 3)] ∧
    ((AttrCell.getLocation ⟨none⟩ ⟨fun _ => 3⟩ "a").2.1.getLocation ⟨fun _ => 9⟩ "b") =
      ((AttrCell.getLocation ⟨none⟩ ⟨fun _ => 3⟩ "a").1,
       (AttrCell.getLocation ⟨none⟩ ⟨fun _ => 3⟩ "a").2.1, []) ∧
    ((UnifCell.getLocation ⟨none⟩ ⟨fun _ => none⟩ "u").2.1.getLocation
        ⟨fun _ => some ⟨1⟩⟩ "u") =
      (none, (UnifCell.getLocation ⟨none⟩ ⟨fun _ => none⟩ "u").2.1, []) :=
  ⟨((c8_location_memoization.1 ⟨none⟩ ⟨fun _ => 3⟩ "a").1 rfl).2,
   (c8_location_memoization.1 ⟨none⟩ ⟨fun _ => 3⟩ "a").2.2 ⟨fun _ => 9⟩ "b",
   (c8_location_memoization.2 ⟨none⟩ ⟨fun _ => none⟩ "u").2.2 ⟨fun _ => some ⟨1⟩⟩ "u"⟩

/-! ## C9 -/

theorem wrap32_eq_self {x : Int} (h1 : -(2 ^ 31) ≤ x) (h2 : x < 2 ^ 31) :
    wrap32 x = x := by
  unfold wrap32
  rcases le_or_lt 0 x with hx | hx
  · rw [Int.emod_eq_of_lt hx (by omega)]
    rw [if_pos h2]
  · have hmod : x % 2 ^ 32 = x + 2 ^ 32 := by
      have hshift : (x + 2 ^ 32) % 2 ^ 32 = x % 2 ^ 32 := by
        simp
      rw [← hshift, Int.emod_eq_of_lt (by omega) (by omega)]
    rw [hmod, if_neg (by omega)]
    omega

theorem i32cast_of_lt {x : Nat} (h : x < 2 ^ 31) : i32cast x = x := by
  unfold i32cast
  exact wrap32_eq_self (by omega) (by exact_mod_cast h)

theorem resolveRange_end_eq (itm : RangeB) (len : Nat) :
    resolveRange itm len =
      (if specResolvedEnd itm len ≤ len then
        .ok ((match itm.start with
          | .included x => x
          | .excluded x => x + 1
          | .unbounded => 0), specResolvedEnd itm len)
       else .panicked "range exceeds buffer length") := by
  unfold resolveRange specResolvedEnd
  rcases itm with ⟨s, e⟩
  rcases e with x | x | _ <;> rfl

/-- C9 (counterexample): for a 1-element vertex buffer and the
selection `0..2^31`, the resolved end `2^31` exceeds the buffer length,
yet `draw_fully` does not panic: the `usize → i32` cast wraps `2^31` to
`−2^31`, the assert `end <= count` passes, and the draw call is issued
with a negative end. -/
theorem c9_overflow_skips_check :
    specResolvedEnd ⟨.included 0, .excluded (2 ^ 31)⟩ 1 = 2 ^ 31 ∧
    1 < 2 ^ 31 ∧
    drawFully 1 ⟨.included 0, .excluded (2 ^ 31)⟩ = .drew 0 (-(2 ^ 31)) := by
  refine ⟨rfl, by norm_num, ?_⟩
  have hcast : i32cast (2 ^ 31) = -(2 ^ 31) := by
    unfold i32cast wrap32
    norm_num
  have h1 : i32cast 1 = 1 := i32cast_of_lt (by norm_num)
  have h0 : i32cast 0 = 0 := i32cast_of_lt (by norm_num)
  simp only [drawFully]
  rw [hcast, h1, h0]
  norm_num

/-- C9 (amended): for bounds and buffer counts that fit in a 32-bit
signed integer, `draw_fully` resolves an unbounded start to 0 and an
unbounded end to the buffer's element count, panics with "items range
exceeds buffer size" exactly when the resolved end exceeds the count, and
draws otherwise; `Indices::draw` (via the spec-modelled `resolve_range`)
behaves the same against the index buffer's length.  (Without the
fits-in-`i32` proviso the check can be bypassed —
`c9_overflow_skips_check`.) -/
theorem c9_range_resolution_amended (count : Nat) (items : RangeB)
    (hc : count < 2 ^ 31)
    (he : items.stop.val < 2 ^ 31 - 1) :
    (items.start = .unbounded → items.stop = .unbounded →
      drawFully count items = .drew 0 (count : Int)) ∧
    (count < specResolvedEnd items count →
      drawFully count items = .panicked "items range exceeds buffer size") ∧
    (specResolvedEnd items count ≤ count →
      ∀ msg, drawFully count items ≠ .panicked msg) ∧
    (∀ (len : Nat) (itm : RangeB),
      (len < specResolvedEnd itm len →
        indicesDraw len itm = .panicked "range exceeds buffer length") ∧
      (specResolvedEnd itm len ≤ len → ∀ m, indicesDraw len itm ≠ .panicked m) ∧
      (itm.start = .unbounded → itm.stop = .unbounded →
        indicesDraw len itm = .drewElements (len : Int) 0)) := by
  have hcount : i32cast count = count := i32cast_of_lt hc
  have hend : ∀ x : Nat, items.stop = .included x → wrap32 (i32cast x + 1) = (x : Int) + 1 := by
    intro x hx
    have hxv : x < 2 ^ 31 - 1 := by rw [hx] at he; exact he
    rw [i32cast_of_lt (by omega)]
    exact wrap32_eq_self (by omega) (by push_cast; omega)
  have hend2 : ∀ x : Nat, items.stop = .excluded x → i32cast x = (x : Int) := by
    intro x hx
    have hxv : x < 2 ^ 31 - 1 := by rw [hx] at he; exact he
    exact i32cast_of_lt (by omega)
  have hEeq : (match items.stop with
      | .included x => wrap32 (i32cast x + 1)
      | .excluded x => i32cast x
      | .unbounded => i32cast count) = (specResolvedEnd items count : Int) := by
    rcases hstop : items.stop with x | x | _
    · simp [specResolvedEnd, hstop, hend x hstop]
    · simp [specResolvedEnd, hstop, hend2 x hstop]
    · simp [specResolvedEnd, hstop, hcount]
  refine ⟨?_, ?_, ?_, ?_⟩
  · intro hst hsp
    unfold drawFully
    rw [hst, hsp]
    simp [hcount]
  · intro hlt
    unfold drawFully
    rw [hEeq, hcount, if_neg (by exact_mod_cast not_le.mpr hlt)]
  · intro hle msg
    unfold drawFully
    rw [hEeq, hcount, if_pos (by exact_mod_cast hle)]
    exact fun hcon => (nomatch hcon)
  · intro len itm
    refine ⟨?_, ?_, ?_⟩
    · intro hlt
      simp only [indicesDraw, resolveRange_end_eq]
      rw [if_neg (not_le.mpr hlt)]
    · intro hle m
      simp only [indicesDraw, resolveRange_end_eq]
      rw [if_pos hle]
      exact fun hcon => (nomatch hcon)
    · intro hst hsp
      rcases itm with ⟨s, e⟩
      dsimp only at hst hsp
      subst hst
      subst hsp
      simp [indicesDraw, resolveRange]

/-- C9 (witness): the amended theorem applied at concrete inputs — a
fully unbounded selection over a 3-element buffer draws `[0, 3)`, the
selection `0..5` over it panics, and the same behaviours hold for the
index-buffer draw. -/
theorem c9_range_resolution_amended_witness :
    drawFully 3 ⟨.unbounded, .unbounded⟩ = .drew 0 3 ∧
    drawFully 3 ⟨.included 0, .excluded 5⟩ =
      .panicked "items range exceeds buffer size" ∧
    indicesDraw 3 ⟨.included 0, .excluded 5⟩ =
      .panicked "range exceeds buffer length" ∧
    indicesDraw 3 ⟨.unbounded, .unbounded⟩ = .drewElements 3 0 :=
  ⟨(c9_range_resolution_amended 3 ⟨.unbounded, .unbounded⟩ (by norm_num)
      (by norm_num [RBound.val])).1 rfl rfl,
   (c9_range_resolution_amended 3 ⟨.included 0, .excluded 5⟩ (by norm_num)
      (by norm_num [RBound.val])).2.1 (by norm_num [specResolvedEnd]),
   ((c9_range_resolution_amended 3 ⟨.included 0, .excluded 5⟩ (by norm_num)
      (by norm_num [RBound.val])).2.2.2 3 ⟨.included 0, .excluded 5⟩).1
      (by norm_num [specResolvedEnd]),
   by
    have h := ((c9_range_resolution_amended 3 ⟨.unbounded, .unbounded⟩ (by norm_num)
      (by norm_num [RBound.val])).2.2.2 3 ⟨.unbounded, .unbounded⟩).2.2 rfl rfl
    simpa using h⟩

/-! ## C10 -/

/-- C10: `Buffer::<T>::bind_to_attr` passes `mem::align_of::<T>()` —
not `mem::size_of::<T>()` — as the stride argument of the
vertex-attribute-pointer call, so whenever `T`'s size differs from its
alignment the declared step between consecutive vertex records is the
alignment, not the record size. -/
theorem c10_stride_is_alignment (T : AttrStructClass) (attrIndex fieldIndex : Nat)
    (c : VapCall) (h : bindToAttr T attrIndex fieldIndex = .ok c) :
    c.stride = i32cast T.align ∧
    (i32cast T.size ≠ i32cast T.align → c.stride ≠ i32cast T.size) := by
  unfold bindToAttr at h
  rcases h1 : T.fieldNumComps fieldIndex with nc | m <;> rw [h1] at h
  case panicked => cases h
  rcases h2 : T.fieldType fieldIndex with tc | m <;> rw [h2] at h
  case panicked => cases h
  rcases h3 : T.fieldNormalized fieldIndex with nm | m <;> rw [h3] at h
  case panicked => cases h
  rcases h4 : T.fieldOffset fieldIndex with off | m <;> rw [h4] at h
  case panicked => cases h
  simp only [PanicOr.ok.injEq] at h
  have hs : c.stride = i32cast T.align := by rw [← h]
  refine ⟨hs, fun hne hca => ?_⟩
  rw [hs] at hca
  exact hne hca.symm

/-- C10 (witness): for the two-`f32`-field attribute struct,
`size_of = 8` but `align_of = 4`, and the issued call's stride is the
alignment 4, not the size 8. -/
theorem c10_stride_is_alignment_witness :
    reprCSize twoF32Fields = 8 ∧ reprCAlign twoF32Fields = 4 ∧
    (VapCall.mk 0 1 5126 false 4 0).stride = i32cast twoF32AttrStruct.align ∧
    (VapCall.mk 0 1 5126 false 4 0).stride ≠ i32cast twoF32AttrStruct.size :=
  ⟨by decide, by decide,
   (c10_stride_is_alignment twoF32AttrStruct 0 0 (VapCall.mk 0 1 5126 false 4 0)
      (by decide)).1,
   (c10_stride_is_alignment twoF32AttrStruct 0 0 (VapCall.mk 0 1 5126 false 4 0)
      (by decide)).2 (by decide)⟩

end Willow
